import Mathlib

/-!
A shallow embedding of the watchflow execution and change-detection engine
(`src/watchflow/core/executor.py`, `src/watchflow/core/watcher.py`,
`src/watchflow/core/engine.py`, `src/watchflow/config/models.py`), together
with theorems settling the specification claims about it.

Modelling conventions: Python dicts become functions into `Option`; the
effectful reads a handler performs (current time, file content hash) are
carried on the event record; the observable behaviour of one spawned process
is an oracle `Nat → AttemptOutcome` (per attempt index); wall-clock
timestamps are modelled at whole-second `Int` resolution (no claim depends on
sub-second values beyond "inside/outside the debounce window", which both
arise at integer times); fallible operations return `Except`.
-/

namespace Watchflow

/-- ASCII lowercasing of one character, modelling Python `str.lower` on the
ASCII command names involved here. -/
def lower_char (c : Char) : Char :=
  if 'A' ≤ c && c ≤ 'Z' then Char.ofNat (c.toNat + 32) else c

/-- Test whether the first character list is a prefix of the second. -/
def chars_start_with : List Char → List Char → Bool
  | [], _ => true
  | _ :: _, [] => false
  | a :: as, b :: bs => a == b && chars_start_with as bs

/-- Test whether `needle` occurs as a contiguous substring of the second
list; together with `str_contains` this models Python's `needle in hay` on
strings. -/
def has_substr : List Char → List Char → Bool
  | needle, [] => needle.isEmpty
  | needle, c :: rest => chars_start_with needle (c :: rest) || has_substr needle rest

/-- Python `needle in hay` for strings. -/
def str_contains (hay needle : String) : Bool := has_substr needle.data hay.data

/-- Scan a glob character set up to the closing `]`; `none` when the bracket
is unclosed. -/
def scan_set : List Char → Option (List Char × List Char)
  | [] => none
  | ']' :: rest => some ([], rest)
  | c :: rest =>
    match scan_set rest with
    | some (s, r) => some (c :: s, r)
    | none => none

/-- Parse the body of a `[...]` glob set (the characters after `[`): an
optional leading `!` negates, and a `]` in first position is a literal
member.  Returns (negated, member characters, remaining pattern). -/
def parse_set (cs : List Char) : Option (Bool × List Char × List Char) :=
  match cs with
  | '!' :: t =>
    match t with
    | ']' :: t2 =>
      match scan_set t2 with
      | some (s, r) => some (true, ']' :: s, r)
      | none => none
    | _ =>
      match scan_set t with
      | some (s, r) => some (true, s, r)
      | none => none
  | ']' :: t2 =>
    match scan_set t2 with
    | some (s, r) => some (false, ']' :: s, r)
    | none => none
  | _ =>
    match scan_set cs with
    | some (s, r) => some (false, s, r)
    | none => none

/-- Membership of a character in a glob set, expanding `a-z` ranges. -/
def in_set : List Char → Char → Bool
  | a :: '-' :: b :: rest, c => (a ≤ c && c ≤ b) || in_set rest c
  | a :: rest, c => a == c || in_set rest c
  | [], _ => false

/-- Glob matching with `*`, `?` and `[...]`, fuelled: every recursive call
strictly shrinks `pattern.length + string.length`, so fuel
`pattern.length + string.length + 1` always suffices (`fnmatch` below). -/
def glob_match_fuel : Nat → List Char → List Char → Bool
  | 0, pat, s => pat.isEmpty && s.isEmpty
  | fuel + 1, pat, s =>
    match pat, s with
    | [], rest => rest.isEmpty
    | '*' :: ps, [] => glob_match_fuel fuel ps []
    | '*' :: ps, c :: cs =>
      glob_match_fuel fuel ps (c :: cs) || glob_match_fuel fuel ('*' :: ps) cs
    | '?' :: ps, _ :: cs => glob_match_fuel fuel ps cs
    | '[' :: ps, c :: cs =>
      match parse_set ps with
      | some (neg, set, rest) => (in_set set c != neg) && glob_match_fuel fuel rest cs
      | none => ('[' == c) && glob_match_fuel fuel ps cs
    | p :: ps, c :: cs => p == c && glob_match_fuel fuel ps cs
    | _ :: _, [] => false

/-- Python `fnmatch.fnmatch(filename, pattern)` in its POSIX case-sensitive
form: glob matching with `*`, `?` and `[...]` sets. -/
def fnmatch (filename pattern : String) : Bool :=
  glob_match_fuel (pattern.data.length + filename.data.length + 1) pattern.data filename.data

/-- `RetryStrategy` from `config/models.py`. -/
inductive RetryStrategy
  | fixed
  | exponential
  deriving DecidableEq, Repr

/-- `Command` from `config/models.py`.  Pydantic enforces `timeout ≥ 1` and
`0 ≤ retries ≤ 10`; where a claim needs those bounds they appear as
hypotheses. -/
structure Command where
  name : String
  cmd : List String
  timeout : Option Nat := none
  retries : Nat := 0
  retry_strategy : RetryStrategy := .fixed
  working_dir : Option String := none
  skip_until_exists : Option String := none
  only_if_changed : Option (List String) := none
  deriving DecidableEq, Repr

instance : Inhabited Command := ⟨{ name := "", cmd := [] }⟩

/-- `Watcher` from `config/models.py`.  `patterns` and `ignore_patterns` are
`Optional[list[str]]`; Python truthiness (`None` and `[]` both falsy) is
reproduced where they are consumed. -/
structure Watcher where
  name : String
  paths : List String
  recursive : Bool := true
  patterns : Option (List String) := none
  ignore_patterns : Option (List String) := none
  debounce : Nat := 100
  commands : List Command
  parallel : Bool := false

instance : Inhabited Watcher := ⟨{ name := "", paths := [], commands := [] }⟩

/-- The filesystem facts `executor.py` consults, as oracles: `root_exists p`
is `(project_root / p).exists()`, `rglob_any pat` is
`list(project_root.rglob(pat)) != []`, `path_exists c` is `Path(c).exists()`
for a path-like first argv token, and `which_ok c` is
`shutil.which(c) is not None`. -/
structure FsEnv where
  root_exists : String → Bool
  rglob_any : String → Bool
  path_exists : String → Bool
  which_ok : String → Bool

/-- The directory names probed by `CommandExecutor._has_tests`. -/
def test_dirs : List String := ["tests", "test", "spec", "__tests__"]

/-- The glob patterns probed by `CommandExecutor._has_tests`. -/
def test_file_patterns : List String :=
  ["*_test.py", "test_*.py", "*_test.go", "*_spec.rb", "*.test.js"]

/-- `CommandExecutor._has_tests`: any conventional test directory exists, or
any conventional test-file pattern matches somewhere under the root. -/
def has_tests (fs : FsEnv) : Bool :=
  test_dirs.any fs.root_exists || test_file_patterns.any fs.rglob_any

/-- Python `"test" in command.name.lower()`. -/
def name_mentions_tests (name : String) : Bool :=
  has_substr "test".data (name.data.map lower_char)

/-- `CommandExecutor._check_skip_conditions`: the `skip_until_exists` guard
first, then the test heuristic for commands whose name mentions "test". -/
def check_skip_conditions (command : Command) (fs : FsEnv) : Option String :=
  match command.skip_until_exists with
  | some p =>
    if !fs.root_exists p then some ("waiting for " ++ p)
    else if name_mentions_tests command.name && !has_tests fs then
      some "no test files or directories found"
    else none
  | none =>
    if name_mentions_tests command.name && !has_tests fs then
      some "no test files or directories found"
    else none

/-- `executor.find_command`: `shutil.which`. -/
def find_command (fs : FsEnv) (cmd : String) : Bool := fs.which_ok cmd

/-- `executor.validate_command`. -/
def validate_command (fs : FsEnv) : List String → Bool × Option String
  | [] => (false, some "Empty command")
  | cmd :: _ =>
    if cmd.data.contains '/' || cmd.data.contains '\\' then
      if fs.path_exists cmd then (true, none)
      else (false, some ("Command path not found: " ++ cmd))
    else if find_command fs cmd then (true, none)
    else (false, some ("Command not found in PATH: " ++ cmd))

/-- `ExecutionResult` from `executor.py`.  Wall-clock durations are not
modelled (`duration` is always 0 in this embedding); no claim concerns them. -/
structure ExecutionResult where
  command_name : String
  success : Bool
  duration : Nat := 0
  return_code : Int := 0
  stdout : String := ""
  stderr : String := ""
  skipped : Bool := false
  skip_reason : Option String := none
  deriving DecidableEq, Repr, Inhabited

/-- Observable behaviour of one `CommandExecutor._run_command` call (one
process attempt): a `CompletedProcess` with exit code and decoded streams,
an `asyncio.TimeoutError` (after killing the process), or an
`OSError`/`ValueError`. -/
inductive AttemptOutcome
  | completed (returncode : Int) (stdout stderr : String)
  | timedOut
  | oserror (msg : String)
  deriving DecidableEq, Repr

/-- The f-string `f"Command timed out after {command.timeout}s"`; Python
renders an unset timeout as `None`. -/
def timeout_message (timeout : Option Nat) : String :=
  "Command timed out after "
    ++ (match timeout with | some n => toString n | none => "None") ++ "s"

/-- `CommandExecutor._calculate_retry_delay`; the float values are integral,
so delays are modelled in whole seconds. -/
def calculate_retry_delay (attempt : Nat) (strategy : RetryStrategy) : Nat :=
  match strategy with
  | .exponential => min (2 ^ attempt) 60
  | .fixed => 1

/-- The retry loop `for attempt in range(command.retries + 1)` of
`CommandExecutor.execute_command`, driven by the abstract per-attempt process
behaviour `o`.  `remaining` counts the loop iterations still available
(`command.retries + 1 - attempt` at every call site), which makes the
recursion structural; the `remaining = 0` base case is Python's unreachable
`"Unknown error"` tail after the loop.  Besides the `ExecutionResult` the
model returns the number of process attempts actually spawned and the list
of retry delays slept, which the source performs only as effects. -/
def attempt_loop (command : Command) (o : Nat → AttemptOutcome) :
    Nat → Nat → ExecutionResult × Nat × List Nat
  | _, 0 =>
    ({ command_name := command.name, success := false, return_code := -1,
       stderr := "Unknown error" }, 0, [])
  | attempt, remaining + 1 =>
    match o attempt with
    | .completed rc out err =>
      if rc = 0 then
        ({ command_name := command.name, success := true, return_code := rc,
           stdout := out, stderr := err }, 1, [])
      else if attempt < command.retries then
        let w := calculate_retry_delay attempt command.retry_strategy
        let r := attempt_loop command o (attempt + 1) remaining
        (r.1, r.2.1 + 1, w :: r.2.2)
      else
        ({ command_name := command.name, success := false, return_code := rc,
           stdout := out, stderr := err }, 1, [])
    | .timedOut =>
      ({ command_name := command.name, success := false, return_code := -1,
         stderr := timeout_message command.timeout }, 1, [])
    | .oserror msg =>
      ({ command_name := command.name, success := false, return_code := -1,
         stderr := msg }, 1, [])

/-- `CommandExecutor.__init__` state.  The `asyncio.Semaphore(max_parallel)`
only bounds concurrency and never changes a returned value, so it has no
functional content here. -/
structure CommandExecutor where
  max_parallel : Nat := 4
  validate_commands : Bool := true

/-- The ambient behaviour `execute_command` interacts with: filesystem
oracles, `TemplateEngine.substitute_list(_, template_vars)` as a function on
argv lists, `sys.platform == "win32"`, and the per-attempt behaviour of a
spawned process keyed by its resolved argv. -/
structure ExecEnv where
  fs : FsEnv
  subst : List String → List String
  is_win32 : Bool := false
  outcomes : List String → Nat → AttemptOutcome

/-- `CommandExecutor.execute_command`: skip evaluation, template
substitution, optional existence validation, then the retry loop.  Returns
the result together with the loop's spawn count and slept retry delays
(0 spawns when the loop is never reached). -/
def CommandExecutor.execute_command (self : CommandExecutor) (env : ExecEnv)
    (command : Command) : ExecutionResult × Nat × List Nat :=
  match check_skip_conditions command env.fs with
  | some reason =>
    ({ command_name := command.name, success := true, skipped := true,
       skip_reason := some reason }, 0, [])
  | none =>
    let cmd_list := env.subst command.cmd
    if self.validate_commands && !env.is_win32 then
      let v := validate_command env.fs cmd_list
      if !v.1 then
        ({ command_name := command.name, success := false, return_code := -1,
           stderr := v.2.getD "Command not found" }, 0, [])
      else
        attempt_loop command (env.outcomes cmd_list) 0 (command.retries + 1)
    else
      attempt_loop command (env.outcomes cmd_list) 0 (command.retries + 1)

/-- The sequential branch of `CommandExecutor.execute_commands`: a loop
appending each awaited result to `result_list`. -/
def CommandExecutor.execute_seq (self : CommandExecutor) (env : ExecEnv) :
    List Command → List ExecutionResult
  | [] => []
  | cmd :: rest => (self.execute_command env cmd).1 :: self.execute_seq env rest

/-- `CommandExecutor.execute_commands`.  In the parallel branch
`asyncio.gather(*tasks)` returns results in task-creation order, i.e. in
declaration order, so both branches yield one result per command in declared
order. -/
def CommandExecutor.execute_commands (self : CommandExecutor) (env : ExecEnv)
    (commands : List Command) (parallel : Bool) : List ExecutionResult :=
  if parallel then commands.map (fun cmd => (self.execute_command env cmd).1)
  else self.execute_seq env commands

/-- The fail-fast test of `WatchFlowEngine._execute_watcher_commands`:
`self.config.global_config.fail_fast and not result.success`. -/
def fail_fast_triggers (fail_fast : Bool) (r : ExecutionResult) : Bool :=
  fail_fast && !r.success

/-- The result-reporting loop of `WatchFlowEngine._execute_watcher_commands`:
each result is printed in order and, when the fail-fast test fires, the
engine is stopped and the loop breaks.  Returns the results actually
reported and whether `stop()` was called. -/
def report_loop (fail_fast : Bool) : List ExecutionResult → List ExecutionResult × Bool
  | [] => ([], false)
  | r :: rest =>
    if fail_fast_triggers fail_fast r then ([r], true)
    else
      let t := report_loop fail_fast rest
      (r :: t.1, t.2)

/-- Outcome of one `WatchFlowEngine._execute_watcher_commands` dispatch: all
results returned by `execute_commands` (each of these commands was actually
executed before any result was inspected), the results reported before a
fail-fast break, and whether the engine was stopped. -/
structure DispatchOutcome where
  results : List ExecutionResult
  reported : List ExecutionResult
  engine_stopped : Bool
  deriving DecidableEq, Repr

/-- `WatchFlowEngine._execute_watcher_commands`: it first awaits
`execute_commands` for the whole group and only then reports the results,
applying fail-fast. -/
def execute_watcher_commands (fail_fast : Bool) (self : CommandExecutor)
    (env : ExecEnv) (w : Watcher) : DispatchOutcome :=
  let results := self.execute_commands env w.commands w.parallel
  let t := report_loop fail_fast results
  ⟨results, t.1, t.2⟩

/-- `Path(path).name`: the final component of a POSIX file path (paths here
carry no trailing separator). -/
def path_name_chars : List Char → List Char → List Char
  | cur, [] => cur
  | _, '/' :: rest => path_name_chars [] rest
  | cur, c :: rest => path_name_chars (cur ++ [c]) rest

/-- `Path(path).name` on strings. -/
def path_name (p : String) : String := ⟨path_name_chars [] p.data⟩

/-- `WatcherEventHandler._should_process`.  `if ...ignore_patterns:` and
`if ...patterns:` use Python truthiness, so `None` and `[]` behave alike;
`getD []` reproduces that. -/
def should_process (cfg : Watcher) (path : String) : Bool :=
  let filename := path_name path
  let ipats := cfg.ignore_patterns.getD []
  if ipats.any (fun pat => fnmatch filename pat || str_contains path pat) then false
  else
    let pats := cfg.patterns.getD []
    if !pats.isEmpty then pats.any (fun pat => fnmatch filename pat)
    else true

/-- The mutable state of a `WatcherEventHandler`: `pending_events` (per-path
last-accepted timestamp, in seconds) and `file_hashes` (per-path cached
content hash).  Python dicts are modelled as functions into `Option`. -/
structure HandlerState where
  pending_events : String → Option Int
  file_hashes : String → Option String

/-- A freshly constructed handler: both dicts empty. -/
def HandlerState.initial : HandlerState := ⟨fun _ => none, fun _ => none⟩

/-- One incoming watchdog event together with the two effectful reads the
handler performs while processing it: `time.time()` (whole-second
resolution) and `compute_file_hash(path)` (`none` when the file cannot be
read). -/
structure FsEventIn where
  is_directory : Bool := false
  src_path : String
  event_type : String := "modified"
  time : Int := 0
  content_hash : Option String := none
  deriving DecidableEq, Repr

/-- What `WatcherEventHandler` forwards to its callback:
`callback(event_type, [path], watcher_name)`. -/
structure Notification where
  event_type : String
  paths : List String
  watcher_name : String
  deriving DecidableEq, Repr

/-- `WatcherEventHandler._has_content_changed`: returns the decision and the
updated `file_hashes` cache (the source updates the cache in place before
returning). -/
def has_content_changed (hashes : String → Option String) (path : String)
    (new_hash : Option String) : Bool × (String → Option String) :=
  match new_hash with
  | none => (true, hashes)
  | some nh =>
    let old := hashes path
    let hashes₁ := fun p => if p = path then some nh else hashes p
    match old with
    | none => (true, hashes₁)
    | some oh => (oh != nh, hashes₁)

/-- `WatcherEventHandler.on_any_event`: directory filter, pattern filter,
debounce (the source compares `(current_time - last_time) * 1000 <
debounce_ms` and returns without touching any state), timestamp update, hash
dedup for `"modified"` events when enabled, then the forwarded
notification. -/
def on_any_event (cfg : Watcher) (debounce_ms : Nat) (use_hash_detection : Bool)
    (st : HandlerState) (e : FsEventIn) : HandlerState × Option Notification :=
  if e.is_directory then (st, none)
  else if !should_process cfg e.src_path then (st, none)
  else
    let debounced : Bool :=
      match st.pending_events e.src_path with
      | some last => decide ((e.time - last) * 1000 < (debounce_ms : Int))
      | none => false
    if debounced then (st, none)
    else
      let pending₁ := fun p => if p = e.src_path then some e.time else st.pending_events p
      if use_hash_detection && e.event_type == "modified" then
        let ch := has_content_changed st.file_hashes e.src_path e.content_hash
        if ch.1 then (⟨pending₁, ch.2⟩, some ⟨e.event_type, [e.src_path], cfg.name⟩)
        else (⟨pending₁, ch.2⟩, none)
      else
        (⟨pending₁, st.file_hashes⟩, some ⟨e.event_type, [e.src_path], cfg.name⟩)

/-- Fold a sequence of incoming events through one handler, collecting the
forwarded notifications in order. -/
def run_events (cfg : Watcher) (debounce_ms : Nat) (use_hash_detection : Bool) :
    HandlerState → List FsEventIn → HandlerState × List Notification
  | st, [] => (st, [])
  | st, e :: es =>
    let step := on_any_event cfg debounce_ms use_hash_detection st e
    let rest := run_events cfg debounce_ms use_hash_detection step.1 es
    (rest.1, match step.2 with | some n => n :: rest.2 | none => rest.2)

/-- The per-path loop of `FileWatcher.add_watcher`: a non-existent path is
logged with a warning and skipped via `continue`; an existing one is
scheduled on the observer.  Returns (scheduled paths, warned-and-skipped
paths), each in declaration order. -/
def add_watcher_paths (root_exists : String → Bool) : List String → List String × List String
  | [] => ([], [])
  | p :: rest =>
    let t := add_watcher_paths root_exists rest
    if root_exists p then (p :: t.1, t.2) else (t.1, p :: t.2)

/-- `FileWatcher.add_watcher` as a fallible operation.  The source body
contains no `raise` at all, so the embedding always returns `.ok`; in
particular `WatchPathNotFoundError` (defined in `exceptions.py` and exported,
but never raised anywhere in the package) cannot escape it. -/
def add_watcher (root_exists : String → Bool) (cfg : Watcher) :
    Except String (List String × List String) :=
  .ok (add_watcher_paths root_exists cfg.paths)

/-! Concrete fixtures used to instantiate the theorems below. -/

/-- An executor with the default configuration (`max_parallel=4`, validation on). -/
def exec0 : CommandExecutor := {}

/-- A project root with no test directories, no test files, no
`skip_until_exists` targets, and a PATH that resolves every bare command. -/
def fs_none : FsEnv := ⟨fun _ => false, fun _ => false, fun _ => false, fun _ => true⟩

/-- A project root where exactly `out.txt` exists (in particular no test
directories) and a PATH that resolves every bare command. -/
def fs_out_txt : FsEnv := ⟨fun p => p == "out.txt", fun _ => false, fun _ => false, fun _ => true⟩

/-- The spec's end-to-end scenario command: always fails, `retries: 2`,
fixed strategy. -/
def flaky_cmd : Command := { name := "flaky", cmd := ["false"], retries := 2 }

/-- An environment whose every process attempt exits 1. -/
def env_always_fail : ExecEnv :=
  { fs := fs_none, subst := id, outcomes := fun _ _ => .completed 1 "" "boom" }

/-- A command with a timeout and retries left. -/
def slow_cmd : Command := { name := "slow", cmd := ["sleep"], timeout := some 5, retries := 3 }

/-- An environment whose first attempt exits 1 and whose second attempt
overruns the timeout. -/
def env_timeout : ExecEnv :=
  { fs := fs_none, subst := id,
    outcomes := fun _ a => if a = 0 then .completed 1 "" "x" else .timedOut }

/-- A command gated on `skip_until_exists: "out.txt"` (name mentions no test). -/
def wait_cmd : Command := { name := "deploy", cmd := ["echo"], skip_until_exists := some "out.txt" }

/-- An environment whose every process attempt exits 0. -/
def env_ok : ExecEnv := { fs := fs_none, subst := id, outcomes := fun _ _ => .completed 0 "" "" }

/-- Same success environment over the root where `out.txt` exists. -/
def env_out_txt : ExecEnv := { fs := fs_out_txt, subst := id, outcomes := fun _ _ => .completed 0 "" "" }

/-- A command whose name mentions "test" and that is additionally gated on
`skip_until_exists: "out.txt"`. -/
def test_cmd : Command := { name := "test", cmd := ["pytest"], skip_until_exists := some "out.txt" }

/-- A command that will fail (exit 1) under `env_mixed`. -/
def bad_cmd : Command := { name := "bad", cmd := ["cmdbad"] }

/-- A command that will succeed (exit 0) under `env_mixed`. -/
def good_cmd : Command := { name := "good", cmd := ["cmdgood"] }

/-- An environment where `cmdbad` exits 1 and everything else exits 0 with
stdout "ok". -/
def env_mixed : ExecEnv :=
  { fs := fs_none, subst := id,
    outcomes := fun cl _ => if cl = ["cmdbad"] then .completed 1 "" "err" else .completed 0 "ok" "" }

/-- A sequential watch group declaring a failing command before a succeeding
one. -/
def w_mixed : Watcher := { name := "g", paths := ["."], commands := [bad_cmd, good_cmd] }

/-- A watch group whose single configured path does not exist. -/
def w_missing : Watcher := { name := "m", paths := ["src"], commands := [] }

/-- A watch group with no include and no ignore patterns (every file passes
the pattern filter). -/
def cfg_plain : Watcher := { name := "w", paths := ["."], commands := [] }

/-- A handler state with an empty debounce dict and `a.py` cached at hash
`h1`. -/
def st_cached : HandlerState :=
  ⟨fun _ => none, fun q => if q = "a.py" then some "h1" else none⟩

/-- A `"modified"` event on `a.py` at second 5 whose content hashes to `h1`. -/
def ev_same : FsEventIn := ⟨false, "a.py", "modified", 5, some "h1"⟩

/-- A `"modified"` event on `a.py` at second 5 whose content hashes to `h2`. -/
def ev_diff : FsEventIn := ⟨false, "a.py", "modified", 5, some "h2"⟩

/-- The Failure result `bad_cmd` produces under `env_mixed`. -/
def r_bad : ExecutionResult :=
  { command_name := "bad", success := false, return_code := 1, stderr := "err" }

/-- The Success result `good_cmd` produces under `env_mixed`. -/
def r_good : ExecutionResult := { command_name := "good", success := true, stdout := "ok" }

/-! Helper lemmas shared by the claim theorems. -/

/-- With fail-fast on, the reporting loop reports exactly through the first
failing result and stops the engine there. -/
theorem report_loop_first_failure (f : ExecutionResult) (hf : f.success = false) :
    ∀ pre post, (∀ r ∈ pre, r.success = true) →
      report_loop true (pre ++ f :: post) = (pre ++ [f], true) := by
  intro pre
  induction pre with
  | nil =>
    intro post _
    simp [report_loop, fail_fast_triggers, hf]
  | cons r rest ih =>
    intro post hpre
    have hr : r.success = true := hpre r (List.mem_cons_self r rest)
    have hrest := ih post (fun x hx => hpre x (List.mem_cons_of_mem r hx))
    simp [report_loop, fail_fast_triggers, hr, hrest]

/-- Reduction of `on_any_event` for a non-directory `"modified"` event that
passes the pattern filter and the debounce check: the debounce timestamp is
updated first, then hash dedup decides between forwarding and dropping. -/
theorem on_any_event_modified (cfg : Watcher) (d : Nat) (st : HandlerState) (e : FsEventIn)
    (hdir : e.is_directory = false)
    (hproc : should_process cfg e.src_path = true)
    (hdeb : ∀ last, st.pending_events e.src_path = some last →
      ¬((e.time - last) * 1000 < (d : Int)))
    (hmod : e.event_type = "modified") :
    on_any_event cfg d true st e
      = (⟨fun p => if p = e.src_path then some e.time else st.pending_events p,
          (has_content_changed st.file_hashes e.src_path e.content_hash).2⟩,
         if (has_content_changed st.file_hashes e.src_path e.content_hash).1 then
           some ⟨e.event_type, [e.src_path], cfg.name⟩
         else none) := by
  by_cases hch : (has_content_changed st.file_hashes e.src_path e.content_hash).1 = true
  · cases hp : st.pending_events e.src_path with
    | none => simp [on_any_event, hdir, hproc, hmod, hp, hch]
    | some last =>
      have hd := decide_eq_false (hdeb last hp)
      simp [on_any_event, hdir, hproc, hmod, hp, hd, hch]
  · cases hp : st.pending_events e.src_path with
    | none => simp [on_any_event, hdir, hproc, hmod, hp, hch]
    | some last =>
      have hd := decide_eq_false (hdeb last hp)
      simp [on_any_event, hdir, hproc, hmod, hp, hd, hch]

/-- Every result the retry loop can return carries the command's name and is
not a skipped result. -/
theorem attempt_loop_fields (c : Command) (o : Nat → AttemptOutcome) :
    ∀ rem a, ((attempt_loop c o a rem).1).command_name = c.name ∧
      ((attempt_loop c o a rem).1).skipped = false := by
  intro rem
  induction rem with
  | zero => intro a; exact ⟨rfl, rfl⟩
  | succ n ih =>
    intro a
    cases ho : o a with
    | completed rc out err =>
      by_cases h0 : rc = 0
      · simp [attempt_loop, ho, h0]
      · by_cases hlt : a < c.retries
        · simpa [attempt_loop, ho, h0, hlt] using ih (a + 1)
        · simp [attempt_loop, ho, h0, hlt]
    | timedOut => simp [attempt_loop, ho]
    | oserror m => simp [attempt_loop, ho]

/-- The retry loop spawns at most as many processes as it has iterations
available. -/
theorem attempt_loop_spawns_le (c : Command) (o : Nat → AttemptOutcome) :
    ∀ rem a, (attempt_loop c o a rem).2.1 ≤ rem := by
  intro rem
  induction rem with
  | zero => intro a; simp [attempt_loop]
  | succ n ih =>
    intro a
    cases ho : o a with
    | completed rc out err =>
      by_cases h0 : rc = 0
      · simp [attempt_loop, ho, h0]
      · by_cases hlt : a < c.retries
        · have hih := ih (a + 1)
          have hstep : (attempt_loop c o a (n + 1)).2.1
              = (attempt_loop c o (a + 1) n).2.1 + 1 := by
            simp [attempt_loop, ho, h0, hlt]
          omega
        · simp [attempt_loop, ho, h0, hlt]
    | timedOut => simp [attempt_loop, ho]
    | oserror m => simp [attempt_loop, ho]

/-- When the command is not skipped and its argv validates, `execute_command`
is exactly the retry loop. -/
theorem execute_command_eq_loop (self : CommandExecutor) (env : ExecEnv) (c : Command)
    (hs : check_skip_conditions c env.fs = none)
    (hval : (validate_command env.fs (env.subst c.cmd)).1 = true) :
    self.execute_command env c
      = attempt_loop c (env.outcomes (env.subst c.cmd)) 0 (c.retries + 1) := by
  by_cases hv : (self.validate_commands && !env.is_win32) = true
  · simp [CommandExecutor.execute_command, hs, hv, hval]
  · simp [CommandExecutor.execute_command, hs, hv]

/-- Every result of `execute_command` carries the command's declared name. -/
theorem execute_command_name (self : CommandExecutor) (env : ExecEnv) (c : Command) :
    ((self.execute_command env c).1).command_name = c.name := by
  cases hs : check_skip_conditions c env.fs with
  | some r => simp [CommandExecutor.execute_command, hs]
  | none =>
    by_cases hv : (self.validate_commands && !env.is_win32) = true
    · by_cases hval : (validate_command env.fs (env.subst c.cmd)).1 = true
      · simp [CommandExecutor.execute_command, hs, hv, hval,
          (attempt_loop_fields c (env.outcomes (env.subst c.cmd)) (c.retries + 1) 0).1]
      · simp [CommandExecutor.execute_command, hs, hv, hval]
    · simp [CommandExecutor.execute_command, hs, hv,
        (attempt_loop_fields c (env.outcomes (env.subst c.cmd)) (c.retries + 1) 0).1]

/-- A skipped `execute_command` result has `success = true` and
`return_code = 0`: the skip branch is the only construction site with
`skipped=True`, and it sets `success=True` and leaves the 0 default. -/
theorem execute_command_skipped_invariant (self : CommandExecutor) (env : ExecEnv)
    (c : Command) (h : ((self.execute_command env c).1).skipped = true) :
    ((self.execute_command env c).1).success = true ∧
    ((self.execute_command env c).1).return_code = 0 := by
  cases hs : check_skip_conditions c env.fs with
  | some r => simp [CommandExecutor.execute_command, hs]
  | none =>
    exfalso
    by_cases hv : (self.validate_commands && !env.is_win32) = true
    · by_cases hval : (validate_command env.fs (env.subst c.cmd)).1 = true
      · rw [execute_command_eq_loop self env c hs hval] at h
        simp [(attempt_loop_fields c (env.outcomes (env.subst c.cmd)) (c.retries + 1) 0).2] at h
      · simp [CommandExecutor.execute_command, hs, hv, hval] at h
    · simp [CommandExecutor.execute_command, hs, hv,
        (attempt_loop_fields c (env.outcomes (env.subst c.cmd)) (c.retries + 1) 0).2] at h

/-- The sequential loop of `execute_commands` produces the per-command map. -/
theorem execute_seq_eq_map (self : CommandExecutor) (env : ExecEnv) :
    ∀ commands : List Command,
      self.execute_seq env commands = commands.map (fun c => (self.execute_command env c).1)
  | [] => rfl
  | c :: rest => by
    simp [CommandExecutor.execute_seq, execute_seq_eq_map self env rest]

/-- Both modes of `execute_commands` produce the per-command map, in declared
order. -/
theorem execute_commands_eq_map (self : CommandExecutor) (env : ExecEnv)
    (commands : List Command) (parallel : Bool) :
    self.execute_commands env commands parallel
      = commands.map (fun c => (self.execute_command env c).1) := by
  cases parallel <;> simp [CommandExecutor.execute_commands, execute_seq_eq_map]

/-- `add_watcher_paths` schedules exactly the existing paths and warns on
exactly the missing ones, each in declaration order. -/
theorem add_watcher_paths_eq_filter (root_exists : String → Bool) :
    ∀ paths : List String,
      add_watcher_paths root_exists paths
        = (paths.filter (fun p => root_exists p), paths.filter (fun p => !root_exists p))
  | [] => rfl
  | p :: rest => by
    simp only [add_watcher_paths, add_watcher_paths_eq_filter root_exists rest, List.filter]
    by_cases h : root_exists p <;> simp [h]

/-- Prepending a list to itself preserves `chars_start_with`. -/
theorem chars_start_with_append (l : List Char) : ∀ t, chars_start_with l (l ++ t) = true := by
  induction l with
  | nil => intro t; rfl
  | cons a as ih => intro t; simp [chars_start_with, ih]

/-- A string always contains its own suffix. -/
theorem has_substr_of_suffix (needle : List Char) :
    ∀ pre, has_substr needle (pre ++ needle) = true := by
  intro pre
  induction pre with
  | nil =>
    cases needle with
    | nil => rfl
    | cons c cs =>
      have h := chars_start_with_append (c :: cs) []
      rw [List.append_nil] at h
      simp [has_substr, h]
  | cons p ps ih => simp [has_substr, ih]

/-- The timeout failure message contains the claimed "timed out after Ns"
fragment. -/
theorem timeout_message_contains (t : Nat) :
    str_contains (timeout_message (some t)) ("timed out after " ++ toString t ++ "s") = true := by
  have h2 : "Command timed out after ".data = "Command ".data ++ "timed out after ".data := by
    decide
  have h1 : (timeout_message (some t)).data
      = "Command ".data ++ ("timed out after " ++ toString t ++ "s").data := by
    show ("Command timed out after " ++ toString t ++ "s").data = _
    rw [String.data_append, String.data_append, String.data_append, String.data_append, h2]
    simp only [List.append_assoc]
  unfold str_contains
  rw [h1]
  exact has_substr_of_suffix _ _

/-- If every attempt before `a + k` exits non-zero and attempt `a + k` exits
0 (with `a + k` in the loop's range), the loop starting at attempt `a`
returns that attempt's Success result after exactly `k + 1` spawns, sleeping
the computed delay after each failing attempt. -/
theorem attempt_loop_first_success (c : Command) (o : Nat → AttemptOutcome)
    (out err : String) :
    ∀ k a, a + k ≤ c.retries →
      (∀ j, j < k → ∃ rcj o1 e1, o (a + j) = .completed rcj o1 e1 ∧ rcj ≠ 0) →
      o (a + k) = .completed 0 out err →
      attempt_loop c o a (c.retries + 1 - a)
        = ({ command_name := c.name, success := true, return_code := 0,
             stdout := out, stderr := err }, k + 1,
           (List.range' a k).map (fun j => calculate_retry_delay j c.retry_strategy)) := by
  intro k
  induction k with
  | zero =>
    intro a _ _ h0
    rw [Nat.add_zero] at h0
    have hrem : c.retries + 1 - a = (c.retries - a) + 1 := by omega
    rw [hrem]
    simp [attempt_loop, h0]
  | succ k ih =>
    intro a ha hfail h0
    have hrem : c.retries + 1 - a = (c.retries - a) + 1 := by omega
    obtain ⟨rc, o1, e1, hoa, hrc⟩ := hfail 0 (Nat.succ_pos k)
    rw [Nat.add_zero] at hoa
    have hlt : a < c.retries := by omega
    have hrec : c.retries - a = c.retries + 1 - (a + 1) := by omega
    have ihres := ih (a + 1) (by omega)
      (fun j hj => by
        obtain ⟨rcj, oj, ej, hj1, hj2⟩ := hfail (j + 1) (by omega)
        refine ⟨rcj, oj, ej, ?_, hj2⟩
        rw [← hj1]
        congr 1
        omega)
      (by rw [← h0]; congr 1; omega)
    rw [← hrec] at ihres
    rw [hrem]
    have step : attempt_loop c o a ((c.retries - a) + 1)
        = ((attempt_loop c o (a + 1) (c.retries - a)).1,
           (attempt_loop c o (a + 1) (c.retries - a)).2.1 + 1,
           calculate_retry_delay a c.retry_strategy
             :: (attempt_loop c o (a + 1) (c.retries - a)).2.2) := by
      simp [attempt_loop, hoa, hrc, hlt]
    rw [step, ihres, List.range'_succ a k 1]
    simp

/-- If every attempt before `a + k` exits non-zero and attempt `a + k` times
out, the loop starting at attempt `a` is terminal there: a timeout Failure
after exactly `k + 1` spawns, whatever retries remain. -/
theorem attempt_loop_timeout (c : Command) (o : Nat → AttemptOutcome) :
    ∀ k a, a + k ≤ c.retries →
      (∀ j, j < k → ∃ rcj o1 e1, o (a + j) = .completed rcj o1 e1 ∧ rcj ≠ 0) →
      o (a + k) = .timedOut →
      attempt_loop c o a (c.retries + 1 - a)
        = ({ command_name := c.name, success := false, return_code := -1,
             stderr := timeout_message c.timeout }, k + 1,
           (List.range' a k).map (fun j => calculate_retry_delay j c.retry_strategy)) := by
  intro k
  induction k with
  | zero =>
    intro a _ _ h0
    rw [Nat.add_zero] at h0
    have hrem : c.retries + 1 - a = (c.retries - a) + 1 := by omega
    rw [hrem]
    simp [attempt_loop, h0]
  | succ k ih =>
    intro a ha hfail h0
    have hrem : c.retries + 1 - a = (c.retries - a) + 1 := by omega
    obtain ⟨rc, o1, e1, hoa, hrc⟩ := hfail 0 (Nat.succ_pos k)
    rw [Nat.add_zero] at hoa
    have hlt : a < c.retries := by omega
    have hrec : c.retries - a = c.retries + 1 - (a + 1) := by omega
    have ihres := ih (a + 1) (by omega)
      (fun j hj => by
        obtain ⟨rcj, oj, ej, hj1, hj2⟩ := hfail (j + 1) (by omega)
        refine ⟨rcj, oj, ej, ?_, hj2⟩
        rw [← hj1]
        congr 1
        omega)
      (by rw [← h0]; congr 1; omega)
    rw [← hrec] at ihres
    rw [hrem]
    have step : attempt_loop c o a ((c.retries - a) + 1)
        = ((attempt_loop c o (a + 1) (c.retries - a)).1,
           (attempt_loop c o (a + 1) (c.retries - a)).2.1 + 1,
           calculate_retry_delay a c.retry_strategy
             :: (attempt_loop c o (a + 1) (c.retries - a)).2.2) := by
      simp [attempt_loop, hoa, hrc, hlt]
    rw [step, ihres, List.range'_succ a k 1]
    simp

/-- When every attempt in `[a, retries]` exits non-zero, the loop spends all
its iterations and returns the final attempt's Failure with the captured
streams, after `retries + 1 - a` spawns and the computed delays. -/
theorem attempt_loop_all_fail (c : Command) (o : Nat → AttemptOutcome)
    (rcf : Nat → Int) (outf errf : Nat → String) :
    ∀ rem a, rem = c.retries + 1 - a → a ≤ c.retries →
      (∀ j, a ≤ j → j ≤ c.retries →
        o j = .completed (rcf j) (outf j) (errf j) ∧ rcf j ≠ 0) →
      attempt_loop c o a rem
        = ({ command_name := c.name, success := false, return_code := rcf c.retries,
             stdout := outf c.retries, stderr := errf c.retries },
           c.retries + 1 - a,
           (List.range' a (c.retries - a)).map
             (fun j => calculate_retry_delay j c.retry_strategy)) := by
  intro rem
  induction rem with
  | zero => intro a hrem ha _; omega
  | succ n ih =>
    intro a hrem ha hfail
    obtain ⟨hoa, hrc⟩ := hfail a le_rfl ha
    by_cases hlt : a < c.retries
    · have hn : n = c.retries + 1 - (a + 1) := by omega
      have ihres := ih (a + 1) hn (by omega) (fun j hj1 hj2 => hfail j (by omega) hj2)
      have step : attempt_loop c o a (n + 1)
          = ((attempt_loop c o (a + 1) n).1,
             (attempt_loop c o (a + 1) n).2.1 + 1,
             calculate_retry_delay a c.retry_strategy
               :: (attempt_loop c o (a + 1) n).2.2) := by
        simp [attempt_loop, hoa, hrc, hlt]
      rw [step, ihres]
      have hr1 : c.retries - a = (c.retries - (a + 1)) + 1 := by omega
      rw [hr1, List.range'_succ a (c.retries - (a + 1)) 1]
      simp only [Prod.mk.injEq, List.map_cons]
      exact ⟨trivial, by omega, trivial⟩
    · have ha2 : a = c.retries := by omega
      have step : attempt_loop c o a (n + 1)
          = ({ command_name := c.name, success := false, return_code := rcf a,
               stdout := outf a, stderr := errf a }, 1, []) := by
        simp [attempt_loop, hoa, hrc, hlt]
      rw [step, ha2]
      have h1 : c.retries + 1 - c.retries = 1 := by omega
      have h2 : c.retries - c.retries = 0 := by omega
      rw [h1, h2]
      simp

/-! Claim theorems. -/

/-- C4: the retry delay under the fixed strategy is always 1 second and under
the exponential strategy is `min(2^attempt, 60)` seconds (attempt 0-indexed);
in particular attempts 0, 1, 2 wait 1s, 2s, 4s and attempt 6 waits 60s, not
64s. -/
theorem C4_retry_delay_values :
    (∀ a, calculate_retry_delay a .fixed = 1) ∧
    (∀ a, calculate_retry_delay a .exponential = min (2 ^ a) 60) ∧
    calculate_retry_delay 0 .exponential = 1 ∧
    calculate_retry_delay 1 .exponential = 2 ∧
    calculate_retry_delay 2 .exponential = 4 ∧
    calculate_retry_delay 6 .exponential = 60 ∧
    calculate_retry_delay 6 .exponential ≠ 64 := by
  refine ⟨fun a => rfl, fun a => rfl, ?_, ?_, ?_, ?_, ?_⟩ <;> decide

/-- C2: `execute_commands` returns one result per command with
`result[i].command_name = commands[i].name` for every index, in both
sequential and parallel mode (both return results in declared order). -/
theorem C2_results_align_with_commands (self : CommandExecutor) (env : ExecEnv)
    (commands : List Command) (parallel : Bool) :
    (self.execute_commands env commands parallel).length = commands.length ∧
    (self.execute_commands env commands parallel).map (fun r => r.command_name)
      = commands.map (fun c => c.name) := by
  rw [execute_commands_eq_map]
  refine ⟨by simp, ?_⟩
  rw [List.map_map]
  simp [Function.comp, execute_command_name]

/-- C8 (amended): registration skips each non-existent path with a warning
and keeps watching the remaining ones, and it never fails: `add_watcher`
always returns `.ok`, even when zero of the group's paths could be attached
(`WatchPathNotFoundError` is never raised). -/
theorem C8_registration_never_fails (root_exists : String → Bool) (cfg : Watcher) :
    add_watcher root_exists cfg
      = .ok (cfg.paths.filter (fun p => root_exists p),
             cfg.paths.filter (fun p => !root_exists p)) := by
  unfold add_watcher
  rw [add_watcher_paths_eq_filter]

/-- C8 counterexample: a group whose single configured path is missing
attaches zero paths, yet registration still returns `.ok` (no scheduled
paths, one warning) instead of raising a `WatchPathError`. -/
theorem C8_counterexample :
    add_watcher (fun _ => false) w_missing = .ok ([], ["src"]) := by
  rfl

/-- C9: every `ExecutionResult` constructed with `skipped = true` also has
`success = true` and `return_code = 0`; consequently a skipped result can
never trip the orchestrator's fail-fast test (which reads only
`result.success`) and the reporting loop passes over it without stopping the
engine. -/
theorem C9_skipped_is_success (self : CommandExecutor) (env : ExecEnv) (c : Command)
    (h : ((self.execute_command env c).1).skipped = true) :
    ((self.execute_command env c).1).success = true ∧
    ((self.execute_command env c).1).return_code = 0 ∧
    (∀ fail_fast, fail_fast_triggers fail_fast ((self.execute_command env c).1) = false) ∧
    (∀ fail_fast rest,
      report_loop fail_fast ((self.execute_command env c).1 :: rest)
        = ((self.execute_command env c).1 :: (report_loop fail_fast rest).1,
           (report_loop fail_fast rest).2)) := by
  obtain ⟨h1, h2⟩ := execute_command_skipped_invariant self env c h
  refine ⟨h1, h2, ?_, ?_⟩
  · intro ff; simp [fail_fast_triggers, h1]
  · intro ff rest
    simp [report_loop, fail_fast_triggers, h1]

/-- C1: with `0 ≤ retries ≤ 10` (and skip/validation passing, so the retry
loop is reached), `execute_command` performs at most `retries + 1` process
attempts; an attempt exiting 0 ends the loop immediately with a Success
result carrying that exit code and the captured streams, after sleeping the
computed retry delay between each earlier failing attempt and its successor;
when every attempt exits non-zero the final attempt's Failure with its
captured streams is returned after exactly `retries + 1` attempts; in
particular an always-failing command with `retries = 2` is attempted exactly
3 times and ends in a non-skipped Failure. -/
theorem C1_retry_policy (self : CommandExecutor) (env : ExecEnv) (c : Command)
    (h10 : c.retries ≤ 10)
    (hs : check_skip_conditions c env.fs = none)
    (hval : (validate_command env.fs (env.subst c.cmd)).1 = true) :
    (self.execute_command env c).2.1 ≤ c.retries + 1 ∧
    (∀ k out err, k ≤ c.retries →
      (∀ j, j < k → ∃ rcj o1 e1,
        env.outcomes (env.subst c.cmd) j = .completed rcj o1 e1 ∧ rcj ≠ 0) →
      env.outcomes (env.subst c.cmd) k = .completed 0 out err →
      self.execute_command env c
        = ({ command_name := c.name, success := true, return_code := 0,
             stdout := out, stderr := err }, k + 1,
           (List.range' 0 k).map (fun j => calculate_retry_delay j c.retry_strategy))) ∧
    (∀ (rcf : Nat → Int) (outf errf : Nat → String),
      (∀ j, j ≤ c.retries →
        env.outcomes (env.subst c.cmd) j = .completed (rcf j) (outf j) (errf j) ∧ rcf j ≠ 0) →
      self.execute_command env c
        = ({ command_name := c.name, success := false, return_code := rcf c.retries,
             stdout := outf c.retries, stderr := errf c.retries }, c.retries + 1,
           (List.range' 0 c.retries).map (fun j => calculate_retry_delay j c.retry_strategy))) ∧
    (c.retries = 2 →
      (∀ j, ∃ rcj o1 e1,
        env.outcomes (env.subst c.cmd) j = .completed rcj o1 e1 ∧ rcj ≠ 0) →
      (self.execute_command env c).2.1 = 3 ∧
      (self.execute_command env c).1.success = false ∧
      (self.execute_command env c).1.skipped = false) := by
  have hloop := execute_command_eq_loop self env c hs hval
  refine ⟨?_, ?_, ?_, ?_⟩
  · rw [hloop]
    exact attempt_loop_spawns_le c (env.outcomes (env.subst c.cmd)) (c.retries + 1) 0
  · intro k out err hk hfail h0
    rw [hloop]
    have := attempt_loop_first_success c (env.outcomes (env.subst c.cmd)) out err k 0
      (by omega) (fun j hj => by simpa using hfail j hj) (by simpa using h0)
    simpa using this
  · intro rcf outf errf hfail
    rw [hloop]
    have := attempt_loop_all_fail c (env.outcomes (env.subst c.cmd)) rcf outf errf
      (c.retries + 1) 0 (by omega) (by omega) (fun j _ hj2 => hfail j hj2)
    simpa using this
  · intro h2 hfail
    choose rcf o1f e1f hofail hnz using hfail
    have hall := attempt_loop_all_fail c (env.outcomes (env.subst c.cmd)) rcf o1f e1f
      (c.retries + 1) 0 (by omega) (by omega) (fun j _ _ => ⟨hofail j, hnz j⟩)
    rw [hloop]
    rw [show c.retries + 1 - 0 = c.retries + 1 from rfl] at hall
    rw [hall]
    simp [h2]

/-- C1 witness: the always-failing command with `retries = 2` under the
default executor is attempted exactly 3 times and ends in a non-skipped
Failure. -/
theorem C1_retry_policy_witness :
    (exec0.execute_command env_always_fail flaky_cmd).2.1 = 3 ∧
    (exec0.execute_command env_always_fail flaky_cmd).1.success = false ∧
    (exec0.execute_command env_always_fail flaky_cmd).1.skipped = false :=
  (C1_retry_policy exec0 env_always_fail flaky_cmd (by decide) (by decide) (by decide)).2.2.2
    (by decide) (fun j => ⟨1, "", "boom", rfl, by decide⟩)

/-- C3: with a timeout set, a timed-out attempt is terminal: `execute_command`
returns immediately a Failure whose stderr contains "timed out after Ns",
after exactly `k + 1` spawns, with no further retry attempts regardless of
how many retries remain. -/
theorem C3_timeout_terminal (self : CommandExecutor) (env : ExecEnv) (c : Command)
    (t : Nat) (ht : c.timeout = some t)
    (hs : check_skip_conditions c env.fs = none)
    (hval : (validate_command env.fs (env.subst c.cmd)).1 = true)
    (k : Nat) (hk : k ≤ c.retries)
    (hfail : ∀ j, j < k → ∃ rcj o1 e1,
      env.outcomes (env.subst c.cmd) j = .completed rcj o1 e1 ∧ rcj ≠ 0)
    (hto : env.outcomes (env.subst c.cmd) k = .timedOut) :
    self.execute_command env c
      = ({ command_name := c.name, success := false, return_code := -1,
           stderr := timeout_message c.timeout }, k + 1,
         (List.range' 0 k).map (fun j => calculate_retry_delay j c.retry_strategy)) ∧
    (self.execute_command env c).2.1 = k + 1 ∧
    str_contains ((self.execute_command env c).1).stderr
      ("timed out after " ++ toString t ++ "s") = true := by
  have hloop := execute_command_eq_loop self env c hs hval
  have hmain := attempt_loop_timeout c (env.outcomes (env.subst c.cmd)) k 0
    (by omega) (fun j hj => by simpa using hfail j hj) (by simpa using hto)
  rw [show c.retries + 1 - 0 = c.retries + 1 from rfl] at hmain
  rw [hloop, hmain]
  refine ⟨rfl, rfl, ?_⟩
  rw [ht]
  exact timeout_message_contains t

/-- C3 witness: `slow_cmd` (timeout 5s, retries 3) fails attempt 0 with exit
1 and times out on attempt 1: execution stops after 2 spawns (though 2 more
retries remained) with the "timed out after 5s" stderr. -/
theorem C3_timeout_terminal_witness :
    (exec0.execute_command env_timeout slow_cmd).2.1 = 2 ∧
    str_contains ((exec0.execute_command env_timeout slow_cmd).1).stderr
      ("timed out after " ++ toString 5 ++ "s") = true := by
  have h := C3_timeout_terminal exec0 env_timeout slow_cmd 5 (by decide) (by decide)
    (by decide) 1 (by decide)
    (fun j hj => by
      have hj0 : j = 0 := by omega
      subst hj0
      exact ⟨1, "", "x", rfl, by decide⟩)
    (by decide)
  exact ⟨h.2.1, h.2.2⟩

/-- C5 (amended): skip evaluation short-circuits before any process spawn:
if `skip_until_exists` is set and the path is absent relative to the project
root, the result is Skipped with reason `"waiting for <path>"` and 0 spawns;
otherwise, if the command's name contains "test" (case-insensitive) and the
project root has none of the conventional test directories and no file
matching the conventional test-file patterns, the result is Skipped with
reason "no test files or directories found" and 0 spawns; and once the
`skip_until_exists` path exists the command produces a normal (non-skipped)
result, provided the test heuristic does not also apply. -/
theorem C5_skip_evaluation (self : CommandExecutor) (env : ExecEnv) (c : Command) :
    (∀ p, c.skip_until_exists = some p → env.fs.root_exists p = false →
      self.execute_command env c
        = ({ command_name := c.name, success := true, skipped := true,
             skip_reason := some ("waiting for " ++ p) }, 0, [])) ∧
    ((c.skip_until_exists = none ∨
        ∃ p, c.skip_until_exists = some p ∧ env.fs.root_exists p = true) →
      name_mentions_tests c.name = true → has_tests env.fs = false →
      self.execute_command env c
        = ({ command_name := c.name, success := true, skipped := true,
             skip_reason := some "no test files or directories found" }, 0, [])) ∧
    ((∀ p, c.skip_until_exists = some p → env.fs.root_exists p = true) →
      (name_mentions_tests c.name = true → has_tests env.fs = true) →
      ((self.execute_command env c).1).skipped = false) := by
  refine ⟨?_, ?_, ?_⟩
  · intro p hp hex
    have hcs : check_skip_conditions c env.fs = some ("waiting for " ++ p) := by
      simp [check_skip_conditions, hp, hex]
    simp [CommandExecutor.execute_command, hcs]
  · intro hor hname hnot
    have hcs : check_skip_conditions c env.fs = some "no test files or directories found" := by
      rcases hor with hnone | ⟨p, hp, hex⟩
      · simp [check_skip_conditions, hnone, hname, hnot]
      · simp [check_skip_conditions, hp, hex, hname, hnot]
    simp [CommandExecutor.execute_command, hcs]
  · intro hall hheur
    have hcs : check_skip_conditions c env.fs = none := by
      have htest : ¬(name_mentions_tests c.name && !has_tests env.fs) = true := by
        by_cases hn : name_mentions_tests c.name = true
        · simp [hn, hheur hn]
        · simp at hn
          simp [hn]
      cases hsu : c.skip_until_exists with
      | none => simp [check_skip_conditions, hsu, htest]
      | some p =>
        have hex := hall p hsu
        simp [check_skip_conditions, hsu, hex, htest]
    by_cases hv : (self.validate_commands && !env.is_win32) = true
    · by_cases hval2 : (validate_command env.fs (env.subst c.cmd)).1 = true
      · rw [execute_command_eq_loop self env c hcs hval2]
        exact (attempt_loop_fields c (env.outcomes (env.subst c.cmd)) (c.retries + 1) 0).2
      · simp [CommandExecutor.execute_command, hcs, hv, hval2]
    · simp [CommandExecutor.execute_command, hcs, hv,
        (attempt_loop_fields c (env.outcomes (env.subst c.cmd)) (c.retries + 1) 0).2]

/-- C5 counterexample: for the command named "test" gated on
`skip_until_exists: "out.txt"`, the path exists and yet the result is still
Skipped (the test heuristic fires because the root has no tests), refuting
the claim's unconditional "once the skip_until_exists path exists the
command produces a normal (non-skipped) result". -/
theorem C5_counterexample :
    test_cmd.skip_until_exists = some "out.txt" ∧
    env_out_txt.fs.root_exists "out.txt" = true ∧
    ((exec0.execute_command env_out_txt test_cmd).1).skipped = true ∧
    ((exec0.execute_command env_out_txt test_cmd).1).skip_reason
      = some "no test files or directories found" := by
  decide

/-- C5 witness: while `out.txt` is absent the gated command is Skipped with
reason "waiting for out.txt" and no process is spawned; once the path exists
(and the test heuristic does not apply) the same command yields a
non-skipped result. -/
theorem C5_skip_evaluation_witness :
    exec0.execute_command env_ok wait_cmd
      = ({ command_name := "deploy", success := true, skipped := true,
           skip_reason := some ("waiting for " ++ "out.txt") }, 0, []) ∧
    ((exec0.execute_command env_out_txt wait_cmd).1).skipped = false := by
  constructor
  · exact (C5_skip_evaluation exec0 env_ok wait_cmd).1 "out.txt" rfl rfl
  · refine (C5_skip_evaluation exec0 env_out_txt wait_cmd).2.2 ?_ ?_
    · intro p hp
      have hp2 : (some "out.txt" : Option String) = some p := hp
      injection hp2 with hp3
      subst hp3
      decide
    · intro hn
      exact absurd hn (by decide)

/-- C9 witness: a concrete command skipped by `skip_until_exists` yields
`success = true` and `return_code = 0`. -/
theorem C9_skipped_is_success_witness :
    ((exec0.execute_command env_ok wait_cmd).1).success = true ∧
    ((exec0.execute_command env_ok wait_cmd).1).return_code = 0 := by
  have h := C9_skipped_is_success exec0 env_ok wait_cmd (by decide)
  exact ⟨h.1, h.2.1⟩

/-- C7 (amended): with fail-fast enabled and a sequential group, the engine
is stopped immediately after the first Failure result is reported and no
later result of that group is reported; however, the whole group has already
been executed before any result is inspected (`execute_commands` is awaited
for all commands first), so the commands declared after the failing one do
run. -/
theorem C7_fail_fast_after_group (self : CommandExecutor) (env : ExecEnv) (w : Watcher)
    (pre post : List ExecutionResult) (f : ExecutionResult)
    (hseq : w.parallel = false)
    (hres : self.execute_commands env w.commands w.parallel = pre ++ f :: post)
    (hpre : ∀ r ∈ pre, r.success = true)
    (hf : f.success = false) :
    (execute_watcher_commands true self env w).results.length = w.commands.length ∧
    (execute_watcher_commands true self env w).reported = pre ++ [f] ∧
    (execute_watcher_commands true self env w).engine_stopped = true := by
  have hlen : (self.execute_commands env w.commands w.parallel).length = w.commands.length := by
    rw [execute_commands_eq_map]
    simp
  have hrep := report_loop_first_failure f hf pre post hpre
  refine ⟨?_, ?_, ?_⟩
  · show (self.execute_commands env w.commands w.parallel).length = _
    exact hlen
  · show (report_loop true (self.execute_commands env w.commands w.parallel)).1 = _
    rw [hres, hrep]
  · show (report_loop true (self.execute_commands env w.commands w.parallel)).2 = _
    rw [hres, hrep]

/-- C7 counterexample: fail-fast on, sequential group `[bad, good]`: the
engine stops after reporting bad's Failure and good's result is never
reported — but good has already run: the group's result list has length 2,
its second entry is good's Success, and good's process was spawned once.
This refutes the claim that "commands declared after the failing one never
run". -/
theorem C7_counterexample :
    (execute_watcher_commands true exec0 env_mixed w_mixed).engine_stopped = true ∧
    (execute_watcher_commands true exec0 env_mixed w_mixed).reported.length = 1 ∧
    (execute_watcher_commands true exec0 env_mixed w_mixed).results.length = 2 ∧
    (execute_watcher_commands true exec0 env_mixed w_mixed).results.getD 1 default
      = { command_name := "good", success := true, stdout := "ok" } ∧
    (exec0.execute_command env_mixed good_cmd).2.1 = 1 := by
  decide

/-- C7 witness: the amended behaviour at the concrete group `[bad, good]`:
both commands execute (2 results), only bad's Failure is reported, and the
engine is stopped. -/
theorem C7_fail_fast_after_group_witness :
    (execute_watcher_commands true exec0 env_mixed w_mixed).results.length = 2 ∧
    (execute_watcher_commands true exec0 env_mixed w_mixed).reported = [] ++ [r_bad] ∧
    (execute_watcher_commands true exec0 env_mixed w_mixed).engine_stopped = true := by
  have h := C7_fail_fast_after_group exec0 env_mixed w_mixed [] [r_good] r_bad rfl
    (by decide) (fun r hr => by simp at hr) (by decide)
  exact ⟨h.1.trans (by decide), h.2.1, h.2.2⟩

/-- C6: content-hash dedup applies exactly to `"modified"` events that passed
the pattern filter and debounce: an unreadable file (hash `none`) is
forwarded with the cache untouched; a first observation or a differing hash
is forwarded with the cache updated to the new hash; an identical hash is
silently dropped.  Hence writing identical content twice (outside the
debounce window) yields exactly one notification, while writing different
content twice yields two. -/
theorem C6_hash_dedup (cfg : Watcher) (d : Nat) (st : HandlerState) (e : FsEventIn)
    (hdir : e.is_directory = false)
    (hproc : should_process cfg e.src_path = true)
    (hdeb : ∀ last, st.pending_events e.src_path = some last →
      ¬((e.time - last) * 1000 < (d : Int)))
    (hmod : e.event_type = "modified") :
    (e.content_hash = none →
      (on_any_event cfg d true st e).2 = some ⟨"modified", [e.src_path], cfg.name⟩ ∧
      (on_any_event cfg d true st e).1.file_hashes = st.file_hashes) ∧
    (∀ h, e.content_hash = some h → st.file_hashes e.src_path = none →
      (on_any_event cfg d true st e).2 = some ⟨"modified", [e.src_path], cfg.name⟩ ∧
      (on_any_event cfg d true st e).1.file_hashes e.src_path = some h) ∧
    (∀ h hold, e.content_hash = some h → st.file_hashes e.src_path = some hold → hold ≠ h →
      (on_any_event cfg d true st e).2 = some ⟨"modified", [e.src_path], cfg.name⟩ ∧
      (on_any_event cfg d true st e).1.file_hashes e.src_path = some h) ∧
    (∀ h, e.content_hash = some h → st.file_hashes e.src_path = some h →
      (on_any_event cfg d true st e).2 = none ∧
      (on_any_event cfg d true st e).1.file_hashes e.src_path = some h) ∧
    (∀ p t1 t2 h1, should_process cfg p = true → ¬((t2 - t1) * 1000 < (d : Int)) →
      (run_events cfg d true HandlerState.initial
        [⟨false, p, "modified", t1, some h1⟩, ⟨false, p, "modified", t2, some h1⟩]).2
        = [⟨"modified", [p], cfg.name⟩]) ∧
    (∀ p t1 t2 h1 h2, should_process cfg p = true → ¬((t2 - t1) * 1000 < (d : Int)) →
      h1 ≠ h2 →
      (run_events cfg d true HandlerState.initial
        [⟨false, p, "modified", t1, some h1⟩, ⟨false, p, "modified", t2, some h2⟩]).2
        = [⟨"modified", [p], cfg.name⟩, ⟨"modified", [p], cfg.name⟩]) := by
  have hstep := on_any_event_modified cfg d st e hdir hproc hdeb hmod
  refine ⟨?_, ?_, ?_, ?_, ?_, ?_⟩
  · intro hnone
    have hch : has_content_changed st.file_hashes e.src_path e.content_hash
        = (true, st.file_hashes) := by
      rw [hnone]
      rfl
    rw [hstep]
    simp [hch, hmod]
  · intro h hsome hcache
    have hch : has_content_changed st.file_hashes e.src_path e.content_hash
        = (true, fun p => if p = e.src_path then some h else st.file_hashes p) := by
      rw [hsome]
      simp [has_content_changed, hcache]
    rw [hstep]
    simp [hch, hmod]
  · intro h hold hsome hcache hne
    have hch : has_content_changed st.file_hashes e.src_path e.content_hash
        = ((hold != h), fun p => if p = e.src_path then some h else st.file_hashes p) := by
      rw [hsome]
      simp [has_content_changed, hcache]
    rw [hstep]
    simp [hch, hmod, hne]
  · intro h hsome hcache
    have hch : has_content_changed st.file_hashes e.src_path e.content_hash
        = ((h != h), fun p => if p = e.src_path then some h else st.file_hashes p) := by
      rw [hsome]
      simp [has_content_changed, hcache]
    rw [hstep]
    simp [hch]
  · intro p t1 t2 h1 hproc2 hout
    simp [run_events, on_any_event, has_content_changed, HandlerState.initial, hproc2, hout]
  · intro p t1 t2 h1 h2 hproc2 hout hne
    simp [run_events, on_any_event, has_content_changed, HandlerState.initial, hproc2, hout,
      hne]

/-- C6 witness: from a fresh handler with no patterns (debounce 100ms),
events at seconds 0 and 1 on `a.py` with identical content hash deliver
exactly one notification; with differing hashes they deliver two. -/
theorem C6_hash_dedup_witness :
    (run_events cfg_plain 100 true HandlerState.initial
      [⟨false, "a.py", "modified", 0, some "h1"⟩,
       ⟨false, "a.py", "modified", 1, some "h1"⟩]).2
      = [⟨"modified", ["a.py"], cfg_plain.name⟩] ∧
    (run_events cfg_plain 100 true HandlerState.initial
      [⟨false, "a.py", "modified", 0, some "h1"⟩,
       ⟨false, "a.py", "modified", 1, some "h2"⟩]).2
      = [⟨"modified", ["a.py"], cfg_plain.name⟩, ⟨"modified", ["a.py"], cfg_plain.name⟩] := by
  have h := C6_hash_dedup cfg_plain 100 HandlerState.initial
    ⟨false, "a.py", "modified", 0, some "h1"⟩ rfl (by decide)
    (fun last hl => by simp [HandlerState.initial] at hl) rfl
  exact ⟨h.2.2.2.2.1 "a.py" 0 1 "h1" (by decide) (by decide),
         h.2.2.2.2.2 "a.py" 0 1 "h1" "h2" (by decide) (by decide) (by decide)⟩

/-- C10: an accepted event updates the per-path debounce timestamp before
hash dedup runs, so a `"modified"` event dropped by dedup still resets the
debounce clock; a later event on the same path within the debounce window is
then discarded by debounce even when its content differs. -/
theorem C10_dedup_still_resets_debounce (cfg : Watcher) (d : Nat) (st : HandlerState)
    (e1 e2 : FsEventIn) (h1 : String)
    (hdir : e1.is_directory = false)
    (hproc : should_process cfg e1.src_path = true)
    (hdeb : ∀ last, st.pending_events e1.src_path = some last →
      ¬((e1.time - last) * 1000 < (d : Int)))
    (hmod : e1.event_type = "modified")
    (hhash : e1.content_hash = some h1)
    (hcache : st.file_hashes e1.src_path = some h1)
    (hdir2 : e2.is_directory = false)
    (hproc2 : should_process cfg e2.src_path = true)
    (hsame : e2.src_path = e1.src_path)
    (hwin : (e2.time - e1.time) * 1000 < (d : Int)) :
    (on_any_event cfg d true st e1).2 = none ∧
    (on_any_event cfg d true st e1).1.pending_events e1.src_path = some e1.time ∧
    on_any_event cfg d true (on_any_event cfg d true st e1).1 e2
      = ((on_any_event cfg d true st e1).1, none) := by
  have hstep := on_any_event_modified cfg d st e1 hdir hproc hdeb hmod
  have hch : has_content_changed st.file_hashes e1.src_path e1.content_hash
      = ((h1 != h1), fun p => if p = e1.src_path then some h1 else st.file_hashes p) := by
    rw [hhash]
    simp [has_content_changed, hcache]
  refine ⟨?_, ?_, ?_⟩
  · rw [hstep]
    simp [hch]
  · rw [hstep]
    simp
  · rw [hstep]
    simp [on_any_event, hdir2, hsame, hproc, hwin]

/-- C10 witness: with `a.py` cached at hash `h1`, a modified event at second
5 with the same hash is dropped by dedup yet sets the debounce timestamp to
5; a different-content event at second 5 (within the 100ms window) is then
discarded by debounce with the state unchanged. -/
theorem C10_dedup_still_resets_debounce_witness :
    (on_any_event cfg_plain 100 true st_cached ev_same).2 = none ∧
    (on_any_event cfg_plain 100 true st_cached ev_same).1.pending_events "a.py" = some 5 ∧
    on_any_event cfg_plain 100 true (on_any_event cfg_plain 100 true st_cached ev_same).1 ev_diff
      = ((on_any_event cfg_plain 100 true st_cached ev_same).1, none) :=
  C10_dedup_still_resets_debounce cfg_plain 100 st_cached ev_same ev_diff "h1" rfl
    (by decide) (fun last hl => by simp [st_cached] at hl) rfl rfl (by decide) rfl
    (by decide) rfl (by decide)

end Watchflow
